import Mathlib

/-!
Verification of the Vulkan render engine core of nova-renderer
(vulkan_render_engine.cpp), as a shallow embedding in Lean.

The embedding models the mesh streaming subsystem (option validation, the
add_mesh staging copies, the mesh id counter, the per-frame upload queue
drain), the pipeline binding/descriptor-set compilation, the shaderpack
reload teardown, the frame-graph pass ordering and the frame loop skip path.
Machine integers are modelled as Nat, with an explicit modulus where 32-bit
wraparound matters; GPU handles are opaque Nat values; maps appear as
association lists in insertion order.
-/

namespace Nova

/-! ## Mesh option validation (vulkan_render_engine::validate_mesh_options) -/

/-- The three exact-multiple relationships checked by validate_mesh_options,
identifying which field the thrown runtime_error message names. -/
inductive MeshOptionField
  | buffer_part_size
  | new_buffer_size
  | max_total_allocation
deriving DecidableEq, Repr

/-- The mesh sizing options consumed from settings_options::mesh_options. -/
structure MeshOptions where
  buffer_part_size : Nat
  new_buffer_size : Nat
  max_total_allocation : Nat
deriving DecidableEq, Repr

/-- Embeds vulkan_render_engine::validate_mesh_options: three modulus checks in
source order, each throwing a runtime_error naming the violated field.
sizeofFullVertex stands for the C++ constant sizeof(full_vertex), whose
definition lives outside the reviewed file. -/
def validate_mesh_options (sizeofFullVertex : Nat) (o : MeshOptions) :
    Except MeshOptionField Unit :=
  if o.buffer_part_size % sizeofFullVertex ≠ 0 then .error .buffer_part_size
  else if o.new_buffer_size % o.buffer_part_size ≠ 0 then .error .new_buffer_size
  else if o.max_total_allocation % o.new_buffer_size ≠ 0 then .error .max_total_allocation
  else .ok ()

/-- The relationship that the error naming a given field asserts was violated. -/
def MeshOptionField.relation (sizeofFullVertex : Nat) (o : MeshOptions) :
    MeshOptionField → Prop
  | .buffer_part_size => sizeofFullVertex ∣ o.buffer_part_size
  | .new_buffer_size => o.buffer_part_size ∣ o.new_buffer_size
  | .max_total_allocation => o.new_buffer_size ∣ o.max_total_allocation

theorem mod_eq_zero_iff_dvd_nat (a b : Nat) : a % b = 0 ↔ b ∣ a :=
  ⟨Nat.dvd_of_mod_eq_zero, Nat.mod_eq_zero_of_dvd⟩

/-- Claim C7: startup mesh-option validation succeeds if and only if
buffer_part_size is a multiple of the vertex record size, new_buffer_size is a
multiple of buffer_part_size and max_total_allocation is a multiple of
new_buffer_size; every failure names a field whose relationship is violated. -/
theorem validate_mesh_options_correct (sv : Nat) (o : MeshOptions) :
    (validate_mesh_options sv o = .ok () ↔
      sv ∣ o.buffer_part_size ∧ o.buffer_part_size ∣ o.new_buffer_size ∧
        o.new_buffer_size ∣ o.max_total_allocation) ∧
    (∀ f, validate_mesh_options sv o = .error f → ¬ f.relation sv o) := by
  unfold validate_mesh_options
  refine ⟨?_, ?_⟩
  · split_ifs with h1 h2 h3 <;>
      simp_all [mod_eq_zero_iff_dvd_nat, ← mod_eq_zero_iff_dvd_nat]
  · intro f hf
    split_ifs at hf with h1 h2 h3
    · simp only [Except.error.injEq] at hf
      subst hf
      simpa [MeshOptionField.relation, ← mod_eq_zero_iff_dvd_nat] using h1
    · simp only [Except.error.injEq] at hf
      subst hf
      simpa [MeshOptionField.relation, ← mod_eq_zero_iff_dvd_nat] using h2
    · simp only [Except.error.injEq] at hf
      subst hf
      simpa [MeshOptionField.relation, ← mod_eq_zero_iff_dvd_nat] using h3

/-- Witness for C7: concrete evaluations, one succeeding, one failing. -/
theorem validate_mesh_options_correct_witness :
    validate_mesh_options 4 ⟨8, 16, 32⟩ = .ok () ∧
      ¬ MeshOptionField.relation 4 ⟨6, 12, 24⟩ .buffer_part_size :=
  ⟨(validate_mesh_options_correct 4 ⟨8, 16, 32⟩).1.mpr (by decide),
    (validate_mesh_options_correct 4 ⟨6, 12, 24⟩).2 .buffer_part_size rfl⟩

/-! ## Staging copies enqueued by vulkan_render_engine::add_mesh -/

/-- Number of full_vertex records per mesh buffer part: the local
num_vertices_per_part = buffer_part_size / sizeof(full_vertex) of add_mesh. -/
def num_vertices_per_part (bufferPartSize sizeofFullVertex : Nat) : Nat :=
  bufferPartSize / sizeofFullVertex

/-- Bytes the part-i copy task of add_mesh writes into the mapped region of the
staging buffer acquired for part i. The task body runs
memcpy(buffer_to_upload_to.pMappedData, vertices_to_upload, num_vertices)
where the vertex pointer is taken at record index i * num_vertices_per_part and
num_vertices = num_vertices_per_part; the third memcpy argument is a BYTE
count, so num_vertices_per_part bytes get copied. Vertex data is modelled as
its byte sequence. -/
def add_mesh_staging_bytes (sizeofFullVertex bufferPartSize : Nat)
    (vertexBytes : List Nat) (i : Nat) : List Nat :=
  let nvpp := num_vertices_per_part bufferPartSize sizeofFullVertex
  (vertexBytes.drop (i * nvpp * sizeofFullVertex)).take nvpp

/-- Stated from the claim (and spec section 4.3): the slice the part-i copy task
is supposed to write, namely buffer_part_size bytes, i.e. num_vertices_per_part
full records, starting at record index i * num_vertices_per_part. -/
def claimed_part_slice (sizeofFullVertex bufferPartSize : Nat)
    (vertexBytes : List Nat) (i : Nat) : List Nat :=
  let nvpp := num_vertices_per_part bufferPartSize sizeofFullVertex
  (vertexBytes.drop (i * nvpp * sizeofFullVertex)).take bufferPartSize

/-- Claim C1 is a code bug: with sizeof(full_vertex) = 4, buffer_part_size = 8
and a one-part mesh of 8 vertex bytes, the enqueued copy task writes only the
first 2 bytes of the part (it passes the vertex count, not the byte count, to
memcpy), not the full 8-byte part-sized slice the claim describes. -/
theorem add_mesh_staging_copy_truncates :
    add_mesh_staging_bytes 4 8 [10, 11, 12, 13, 14, 15, 16, 17] 0 = [10, 11] ∧
    claimed_part_slice 4 8 [10, 11, 12, 13, 14, 15, 16, 17] 0 =
      [10, 11, 12, 13, 14, 15, 16, 17] ∧
    add_mesh_staging_bytes 4 8 [10, 11, 12, 13, 14, 15, 16, 17] 0 ≠
      claimed_part_slice 4 8 [10, 11, 12, 13, 14, 15, 16, 17] 0 := by
  decide

/-! ## Mesh id assignment (add_mesh step 5 and delete_mesh) -/

/-- Modulus of the uint32 next_mesh_id counter. -/
def U32 : Nat := 2 ^ 32

/-- The mesh table: next_mesh_id is a std::atomic uint32 (stored value below
2 to the 32, fetch_add wraps); mesh_ids lists the ids of recorded Mesh
Entries, in insertion order. -/
structure MeshTable where
  next_mesh_id : Nat
  mesh_ids : List Nat
deriving DecidableEq, Repr

/-- Steps 4-5 of add_mesh: mesh_id = next_mesh_id.fetch_add(1) (returns the old
value, stores old + 1 with 32-bit wraparound), then meshes[mesh_id] is
recorded. -/
def mesh_add (s : MeshTable) : Nat × MeshTable :=
  (s.next_mesh_id,
    { next_mesh_id := (s.next_mesh_id + 1) % U32,
      mesh_ids := s.mesh_ids ++ [s.next_mesh_id] })

/-- vulkan_render_engine::delete_mesh: erases the Mesh Entry (and frees its
allocation); next_mesh_id is not touched. -/
def mesh_delete (s : MeshTable) (id : Nat) : MeshTable :=
  { s with mesh_ids := s.mesh_ids.erase id }

/-- One call into the mesh streaming API, as far as id management goes. -/
inductive MeshOp
  | add
  | del (id : Nat)
deriving DecidableEq, Repr

/-- Runs a sequence of add_mesh / delete_mesh calls, collecting the ids the
add_mesh calls return. -/
def run_mesh_ops (s : MeshTable) : List MeshOp → List Nat × MeshTable
  | [] => ([], s)
  | .add :: ops =>
    let s1 := (mesh_add s).2
    ((mesh_add s).1 :: (run_mesh_ops s1 ops).1, (run_mesh_ops s1 ops).2)
  | .del i :: ops => run_mesh_ops (mesh_delete s i) ops

/-- Number of add_mesh calls in an operation sequence. -/
def num_adds : List MeshOp → Nat
  | [] => 0
  | .add :: ops => num_adds ops + 1
  | .del _ :: ops => num_adds ops

theorem run_mesh_ops_ids_mod (s : MeshTable) (ops : List MeshOp)
    (h : s.next_mesh_id < U32) :
    (run_mesh_ops s ops).1 =
      (List.range (num_adds ops)).map (fun k => (s.next_mesh_id + k) % U32) := by
  induction ops generalizing s with
  | nil => simp [run_mesh_ops, num_adds]
  | cons op ops ih =>
    cases op with
    | add =>
      have hU : 0 < U32 := by decide
      have h1 : (s.next_mesh_id + 1) % U32 < U32 := Nat.mod_lt _ hU
      simp only [run_mesh_ops, num_adds, mesh_add]
      rw [ih _ h1]
      rw [List.range_succ_eq_map, List.map_cons, List.map_map]
      refine congrArg₂ _ (by simp [Nat.mod_eq_of_lt h]) ?_
      refine List.map_congr_left fun k _ => ?_
      simp only [Function.comp]
      rw [Nat.mod_add_mod]
      congr 1
      omega
    | del i =>
      simp only [run_mesh_ops, num_adds, mesh_delete]
      exact ih _ h

theorem run_mesh_ops_ids_no_wrap (s : MeshTable) (ops : List MeshOp)
    (h0 : s.next_mesh_id < U32) (h : s.next_mesh_id + num_adds ops ≤ U32) :
    (run_mesh_ops s ops).1 = List.range' s.next_mesh_id (num_adds ops) := by
  rw [run_mesh_ops_ids_mod s ops h0, List.range'_eq_map_range]
  refine List.map_congr_left fun k hk => ?_
  have hk2 : k < num_adds ops := List.mem_range.mp hk
  exact Nat.mod_eq_of_lt (by omega)

/-- Claim C8 amended: as long as fewer than 2 to the 32 mesh ids are consumed
over the process lifetime, the ids returned by add_mesh are pairwise strictly
increasing across any interleaving of add_mesh and delete_mesh calls, so no id
is ever reassigned and deletion never frees an id for reuse. -/
theorem mesh_ids_strictly_increasing (s : MeshTable) (ops : List MeshOp)
    (h0 : s.next_mesh_id < U32) (h : s.next_mesh_id + num_adds ops ≤ U32) :
    List.Pairwise (· < ·) (run_mesh_ops s ops).1 := by
  rw [run_mesh_ops_ids_no_wrap s ops h0 h]
  exact List.pairwise_lt_range' _ _

/-- Witness for the amended C8: three adds with an interleaved delete, from a
fresh table. -/
theorem mesh_ids_strictly_increasing_witness :
    List.Pairwise (· < ·) (run_mesh_ops ⟨0, []⟩ [.add, .add, .del 0, .add]).1 :=
  mesh_ids_strictly_increasing ⟨0, []⟩ [.add, .add, .del 0, .add]
    (by decide) (by decide)

/-- Claim C8 counterexample: starting from a fresh mesh table, the call number
2 to the 32 of add_mesh returns id 0 again, the same id the very first call
returned: fetch_add on the uint32 counter wraps, so ids are not strictly
increasing and are reused over a long enough process lifetime. -/
theorem mesh_id_wraps_after_u32_adds :
    ((run_mesh_ops ⟨0, []⟩ (List.replicate (U32 + 1) .add)).1.getD 0 1 = 0) ∧
    ((run_mesh_ops ⟨0, []⟩ (List.replicate (U32 + 1) .add)).1.getD U32 1 = 0) := by
  have hadds : num_adds (List.replicate (U32 + 1) .add) = U32 + 1 := by
    induction (U32 + 1) with
    | zero => rfl
    | succ n ih => simpa [List.replicate_succ, num_adds] using ih
  have hids := run_mesh_ops_ids_mod ⟨0, []⟩ (List.replicate (U32 + 1) .add)
    (by decide)
  rw [hadds] at hids
  have hget : ∀ k, k < U32 + 1 →
      (run_mesh_ops ⟨0, []⟩ (List.replicate (U32 + 1) .add)).1.getD k 1 =
        (0 + k) % U32 := by
    intro k hk
    rw [hids, List.getD_eq_getElem?_getD, List.getElem?_map, List.getElem?_range hk]
    rfl
  constructor
  · rw [hget 0 (by omega)]
    simp
  · rw [hget U32 (by omega)]
    simp [Nat.mod_self]

/-! ## Per-frame upload step (vulkan_render_engine::upload_new_mesh_parts) -/

/-- One part of a block allocation (block_memory_allocation::parts entry):
destination megabuffer handle and byte offset. -/
structure BufferPart where
  buffer : Nat
  offset : Nat
deriving DecidableEq, Repr

/-- A queued staging_buffer_upload_command: the staging buffers (by handle)
paired with the parts of the destination block allocation. -/
structure StagingUploadCommand where
  staging_buffers : List Nat
  parts : List BufferPart
deriving DecidableEq, Repr

/-- One vkCmdCopyBuffer region as recorded by the upload loop. -/
structure BufferCopy where
  src : Nat
  dst : Nat
  srcOffset : Nat
  dstOffset : Nat
  size : Nat
deriving DecidableEq, Repr

/-- A command recorded into the mesh upload command buffer. -/
inductive RecordedCommand
  | barrier_before_upload
  | copy (c : BufferCopy)
  | barrier_after_upload
deriving DecidableEq, Repr

/-- The inner for loop of upload_new_mesh_parts for one drained command: one
copy per index i into staging_buffers, of size buffer_part_size, from
staging_buffers[i] at source offset 0 into parts[i].buffer at parts[i].offset
(add_mesh builds the two lists with equal lengths). -/
def copies_for_command (partSize : Nat) (cmd : StagingUploadCommand) :
    List BufferCopy :=
  (cmd.staging_buffers.zip cmd.parts).map fun sp =>
    { src := sp.1, dst := sp.2.buffer, srcOffset := 0, dstOffset := sp.2.offset,
      size := partSize }

/-- The while loop of upload_new_mesh_parts: pops commands until the queue is
empty, recording each popped command's copies and collecting its staging
buffers into freed_buffers. Returns (copies in drain order, freed staging
buffers, final queue). -/
def drain_upload_queue (partSize : Nat) :
    List StagingUploadCommand →
      List BufferCopy × List Nat × List StagingUploadCommand
  | [] => ([], [], [])
  | cmd :: rest =>
    (copies_for_command partSize cmd ++ (drain_upload_queue partSize rest).1,
      cmd.staging_buffers ++ (drain_upload_queue partSize rest).2.1,
      (drain_upload_queue partSize rest).2.2)

/-- vulkan_render_engine::upload_new_mesh_parts, as its effect on the upload
queue and the command stream it records: pre-upload barrier
(add_barriers_before_data_upload), the drained copies under the queue lock,
post-upload barrier (add_barriers_after_data_upload). Returns the recorded
command stream, the staging buffers handed to the fence-waiting free task, and
the queue left behind. -/
def upload_new_mesh_parts (partSize : Nat) (queue : List StagingUploadCommand) :
    List RecordedCommand × List Nat × List StagingUploadCommand :=
  ((RecordedCommand.barrier_before_upload ::
      ((drain_upload_queue partSize queue).1.map .copy)) ++
      [RecordedCommand.barrier_after_upload],
    (drain_upload_queue partSize queue).2.1,
    (drain_upload_queue partSize queue).2.2)

theorem getElem?_zip_of_getElem? {α β : Type} (l1 : List α) (l2 : List β)
    (i : Nat) (a : α) (b : β) (h1 : l1[i]? = some a) (h2 : l2[i]? = some b) :
    (l1.zip l2)[i]? = some (a, b) := by
  induction l1 generalizing l2 i with
  | nil => simp at h1
  | cons x xs ih =>
    cases l2 with
    | nil => simp at h2
    | cons y ys =>
      cases i with
      | zero => simp_all
      | succ n =>
        simp only [List.zip_cons_cons, List.getElem?_cons_succ] at h1 h2 ⊢
        exact ih ys n h1 h2

theorem drain_upload_queue_copies (partSize : Nat)
    (queue : List StagingUploadCommand) :
    (drain_upload_queue partSize queue).1 =
      queue.flatMap (copies_for_command partSize) := by
  induction queue with
  | nil => rfl
  | cons cmd rest ih => simp [drain_upload_queue, ih]

theorem drain_upload_queue_empties (partSize : Nat)
    (queue : List StagingUploadCommand) :
    (drain_upload_queue partSize queue).2.2 = [] := by
  induction queue with
  | nil => rfl
  | cons cmd rest ih => simpa [drain_upload_queue] using ih

/-- Claim C3: the per-frame upload step leaves the queue empty, records one
copy per part of each drained command (source the part's staging buffer at
offset 0, destination the part's megabuffer at the part's recorded offset,
size buffer_part_size), and the post-upload barrier is recorded after all the
copies, which sit between the two barriers. -/
theorem upload_new_mesh_parts_correct (partSize : Nat)
    (queue : List StagingUploadCommand)
    (hlen : ∀ cmd ∈ queue, cmd.staging_buffers.length = cmd.parts.length) :
    (upload_new_mesh_parts partSize queue).2.2 = [] ∧
    (upload_new_mesh_parts partSize queue).1 =
      RecordedCommand.barrier_before_upload ::
        (queue.flatMap (copies_for_command partSize)).map .copy ++
        [RecordedCommand.barrier_after_upload] ∧
    (∀ cmd ∈ queue,
      (copies_for_command partSize cmd).length = cmd.parts.length ∧
      ∀ (i s : Nat) (p : BufferPart), cmd.staging_buffers[i]? = some s → cmd.parts[i]? = some p →
        (copies_for_command partSize cmd)[i]? =
          some ⟨s, p.buffer, 0, p.offset, partSize⟩) := by
  refine ⟨drain_upload_queue_empties partSize queue, ?_, ?_⟩
  · show _ ++ _ = _
    rw [drain_upload_queue_copies]
  · intro cmd hcmd
    refine ⟨?_, ?_⟩
    · simp [copies_for_command, List.length_zip, hlen cmd hcmd]
    · intro i s p hs hp
      have hz := getElem?_zip_of_getElem? cmd.staging_buffers cmd.parts i s p hs hp
      simp [copies_for_command, List.getElem?_map, hz]

/-- Witness for C3: a queue of two commands, one with two parts, one with one
part. -/
theorem upload_new_mesh_parts_correct_witness :
    (upload_new_mesh_parts 64
        [⟨[7, 8], [⟨1, 0⟩, ⟨1, 64⟩]⟩, ⟨[9], [⟨2, 128⟩]⟩]).2.2 = [] ∧
    (upload_new_mesh_parts 64
        [⟨[7, 8], [⟨1, 0⟩, ⟨1, 64⟩]⟩, ⟨[9], [⟨2, 128⟩]⟩]).1 =
      RecordedCommand.barrier_before_upload ::
        ([⟨[7, 8], [⟨1, 0⟩, ⟨1, 64⟩]⟩, ⟨[9], [⟨2, 128⟩]⟩].flatMap
            (copies_for_command 64)).map .copy ++
        [RecordedCommand.barrier_after_upload] ∧
    (∀ cmd ∈ [(⟨[7, 8], [⟨1, 0⟩, ⟨1, 64⟩]⟩ : StagingUploadCommand),
        ⟨[9], [⟨2, 128⟩]⟩],
      (copies_for_command 64 cmd).length = cmd.parts.length ∧
      ∀ (i s : Nat) (p : BufferPart), cmd.staging_buffers[i]? = some s → cmd.parts[i]? = some p →
        (copies_for_command 64 cmd)[i]? =
          some ⟨s, p.buffer, 0, p.offset, 64⟩) :=
  upload_new_mesh_parts_correct 64
    [⟨[7, 8], [⟨1, 0⟩, ⟨1, 64⟩]⟩, ⟨[9], [⟨2, 128⟩]⟩] (by decide)

/-! ## Shader resource bindings and descriptor set layouts
(add_resource_to_bindings, get_shader_module_descriptors,
create_descriptor_set_layouts) -/

/-- The two descriptor types relevant to the reflection code. -/
inductive VkDescriptorType
  | combined_image_sampler
  | uniform_buffer
deriving DecidableEq, Repr

/-- vk_resource_binding. -/
structure VkResourceBinding where
  set : Nat
  binding : Nat
  descriptorType : VkDescriptorType
  descriptorCount : Nat
deriving DecidableEq, Repr

/-- A reflected shader resource: its name plus the DescriptorSet and Binding
decorations read through spirv_cross get_decoration. -/
structure ShaderResource where
  name : String
  set : Nat
  binding : Nat
deriving DecidableEq, Repr

/-- The reflected resources of one shader module (spirv_cross ShaderResources),
restricted to the two lists get_shader_module_descriptors iterates over. -/
structure ShaderResources where
  sampled_images : List ShaderResource
  uniform_buffers : List ShaderResource
deriving DecidableEq, Repr

/-- The error line logged by add_resource_to_bindings on a name collision with
a different binding tuple; it names the conflicting uniform. -/
def mismatch_log (name : String) : String :=
  "You have two different uniforms named " ++ name ++
    " in different shader stages. This is not allowed. Use unique names"

/-- The binding add_resource_to_bindings builds for a reflected resource: set
and binding from the decorations, descriptor type always
VK_DESCRIPTOR_TYPE_COMBINED_IMAGE_SAMPLER, descriptor count always 1. -/
def reflected_binding (res : ShaderResource) : VkResourceBinding :=
  { set := res.set, binding := res.binding,
    descriptorType := .combined_image_sampler, descriptorCount := 1 }

/-- vulkan_render_engine::add_resource_to_bindings, over the bindings map (as
an association list in insertion order) paired with the error log: a new name
is inserted; a name already present with a different tuple only logs the
mismatch error and keeps the existing binding; no exception is thrown. -/
def add_resource_to_bindings
    (st : List (String × VkResourceBinding) × List String)
    (res : ShaderResource) : List (String × VkResourceBinding) × List String :=
  match st.1.lookup res.name with
  | none => (st.1 ++ [(res.name, reflected_binding res)], st.2)
  | some existing =>
    if existing ≠ reflected_binding res then
      (st.1, st.2 ++ [mismatch_log res.name])
    else (st.1, st.2)

/-- vulkan_render_engine::get_shader_module_descriptors: adds every sampled
image, then every uniform buffer, of the module to the bindings map. -/
def get_shader_module_descriptors (spirv : ShaderResources)
    (st : List (String × VkResourceBinding) × List String) :
    List (String × VkResourceBinding) × List String :=
  (spirv.sampled_images ++ spirv.uniform_buffers).foldl add_resource_to_bindings st

/-- The binding-merging part of create_graphics_pipelines: starting from an
empty map, reflect each shader stage of the pipeline in declaration order. -/
def merge_pipeline_bindings (stages : List ShaderResources) :
    List (String × VkResourceBinding) × List String :=
  stages.foldl (fun st s => get_shader_module_descriptors s st) ([], [])

/-- One created descriptor set layout: the set index it was built for together
with the layout bindings taken from the merged bindings of that set. -/
structure DescriptorSetLayout where
  set : Nat
  bindings : List VkResourceBinding
deriving DecidableEq, Repr

/-- The bindings_by_set entry for set index i: the merged bindings whose set
decoration equals i, in map order. -/
def bindings_for_set (all : List (String × VkResourceBinding)) (i : Nat) :
    List VkResourceBinding :=
  (all.filter (fun nb => nb.2.set == i)).map (·.2)

/-- bindings_by_set.size(): the number of distinct populated set indices. -/
def num_populated_sets (all : List (String × VkResourceBinding)) : Nat :=
  ((all.map (fun nb => nb.2.set)).dedup).length

/-- The i loop of create_descriptor_set_layouts run for i below k: checks each
index in ascending order, throwing shader_layout_creation_failed (modelled as
an error carrying the missing index) at the first index with no bindings,
otherwise creating the layout for that index. -/
def layouts_up_to (all : List (String × VkResourceBinding)) :
    Nat → Except Nat (List DescriptorSetLayout)
  | 0 => .ok []
  | k + 1 =>
    match layouts_up_to all k with
    | .error e => .error e
    | .ok ls =>
      if (bindings_for_set all k).isEmpty then .error k
      else .ok (ls ++ [⟨k, bindings_for_set all k⟩])

/-- vulkan_render_engine::create_descriptor_set_layouts: groups the merged
bindings by set index, then loops i from 0 below bindings_by_set.size(),
throwing on a missing index and otherwise building one layout per index, in
index order. -/
def create_descriptor_set_layouts
    (all : List (String × VkResourceBinding)) :
    Except Nat (List DescriptorSetLayout) :=
  layouts_up_to all (num_populated_sets all)

/-- The binding and layout portion of compiling one pipeline
(create_graphics_pipelines): merge the stage bindings, mismatches being only
logged, then create the descriptor set layouts — the only failure point on
this path is the descriptor-set-gap exception. -/
def compile_pipeline_layouts (stages : List ShaderResources) :
    Except Nat (List DescriptorSetLayout) × List String :=
  (create_descriptor_set_layouts (merge_pipeline_bindings stages).1,
    (merge_pipeline_bindings stages).2)

/-- Claim C2 counterexample: one stage declares uniform "u" at set 0, another
declares "u" at set 1 — a binding mismatch. Pipeline compilation does not
fail: the mismatch is only logged, the layouts are built successfully, and the
pipeline keeps the first-seen binding (set 0). -/
theorem binding_mismatch_not_fatal :
    compile_pipeline_layouts [⟨[], [⟨"u", 0, 0⟩]⟩, ⟨[⟨"u", 1, 0⟩], []⟩] =
      (.ok [⟨0, [⟨0, 0, .combined_image_sampler, 1⟩]⟩], [mismatch_log "u"]) ∧
    (merge_pipeline_bindings
        [⟨[], [⟨"u", 0, 0⟩]⟩, ⟨[⟨"u", 1, 0⟩], []⟩]).1.lookup "u" =
      some ⟨0, 0, .combined_image_sampler, 1⟩ :=
  ⟨rfl, rfl⟩

/-- Claim C2 amended: a uniform name reflected again with a different binding
tuple makes add_resource_to_bindings append the error line naming the
conflicting uniform to the log and keep the first-seen binding unchanged;
compilation continues (this is the only mismatch handling — no exception). -/
theorem add_resource_to_bindings_mismatch_logged
    (bindings : List (String × VkResourceBinding)) (log : List String)
    (res : ShaderResource) (existing : VkResourceBinding)
    (hl : bindings.lookup res.name = some existing)
    (hne : existing ≠ reflected_binding res) :
    add_resource_to_bindings (bindings, log) res =
      (bindings, log ++ [mismatch_log res.name]) := by
  simp [add_resource_to_bindings, hl, hne]

/-- Witness for the amended C2, at the concrete mismatch of the
counterexample. -/
theorem add_resource_to_bindings_mismatch_logged_witness :
    add_resource_to_bindings
        ([("u", ⟨0, 0, .combined_image_sampler, 1⟩)], []) ⟨"u", 1, 0⟩ =
      ([("u", ⟨0, 0, .combined_image_sampler, 1⟩)], [mismatch_log "u"]) :=
  add_resource_to_bindings_mismatch_logged
    [("u", ⟨0, 0, .combined_image_sampler, 1⟩)] [] ⟨"u", 1, 0⟩
    ⟨0, 0, .combined_image_sampler, 1⟩ (by decide) (by decide)

/-! ## Uniform descriptor types (C10) -/

/-- All reflected resources of a list of shader stages, in reflection order. -/
def all_stage_resources (stages : List ShaderResources) : List ShaderResource :=
  stages.flatMap (fun s => s.sampled_images ++ s.uniform_buffers)

theorem foldl_add_resource_good (R l : List ShaderResource)
    (st : List (String × VkResourceBinding) × List String)
    (hst : ∀ p ∈ st.1, p.2.descriptorType = .combined_image_sampler ∧
      p.2.descriptorCount = 1 ∧
      ∃ r ∈ R, r.name = p.1 ∧ r.set = p.2.set ∧ r.binding = p.2.binding)
    (hl : ∀ r ∈ l, r ∈ R) :
    ∀ p ∈ (l.foldl add_resource_to_bindings st).1,
      p.2.descriptorType = .combined_image_sampler ∧
      p.2.descriptorCount = 1 ∧
      ∃ r ∈ R, r.name = p.1 ∧ r.set = p.2.set ∧ r.binding = p.2.binding := by
  induction l generalizing st with
  | nil => exact hst
  | cons r rs ih =>
    refine ih _ ?_ (fun x hx => hl x (List.mem_cons_of_mem _ hx))
    intro p hp
    cases hlook : st.1.lookup r.name with
    | none =>
      have heq : (add_resource_to_bindings st r).1 =
          st.1 ++ [(r.name, reflected_binding r)] := by
        simp [add_resource_to_bindings, hlook]
      rw [heq] at hp
      rcases List.mem_append.mp hp with h1 | h2
      · exact hst p h1
      · simp only [List.mem_singleton] at h2
        subst h2
        exact ⟨rfl, rfl, r, hl r (List.mem_cons_self r rs), rfl, rfl, rfl⟩
    | some existing =>
      have heq : (add_resource_to_bindings st r).1 = st.1 := by
        simp only [add_resource_to_bindings, hlook]
        split_ifs <;> rfl
      rw [heq] at hp
      exact hst p hp

theorem foldl_stages_eq (stages : List ShaderResources)
    (st : List (String × VkResourceBinding) × List String) :
    stages.foldl (fun st s => get_shader_module_descriptors s st) st =
      (all_stage_resources stages).foldl add_resource_to_bindings st := by
  induction stages generalizing st with
  | nil => rfl
  | cons s ss ih =>
    show List.foldl (fun st s => get_shader_module_descriptors s st)
        (get_shader_module_descriptors s st) ss = _
    rw [ih]
    unfold all_stage_resources
    rw [List.flatMap_cons, List.foldl_append]
    rfl

/-- Claim C10: every resource merged into a pipeline bindings map — uniform
buffers included — carries descriptor type COMBINED_IMAGE_SAMPLER and
descriptor count 1; only the set and binding indices come from the shader
reflection; consequently no binding in the created descriptor set layouts has
type UNIFORM_BUFFER. -/
theorem merged_bindings_always_combined_image_sampler
    (stages : List ShaderResources) (p : String × VkResourceBinding)
    (hp : p ∈ (merge_pipeline_bindings stages).1) :
    (p.2.descriptorType = .combined_image_sampler ∧
      p.2.descriptorType ≠ .uniform_buffer ∧
      p.2.descriptorCount = 1 ∧
      ∃ r ∈ all_stage_resources stages,
        r.name = p.1 ∧ r.set = p.2.set ∧ r.binding = p.2.binding) := by
  rw [merge_pipeline_bindings, foldl_stages_eq] at hp
  have h := foldl_add_resource_good (all_stage_resources stages)
    (all_stage_resources stages) ([], []) (by simp) (fun r hr => hr) p hp
  refine ⟨h.1, ?_, h.2⟩
  intro hub
  rw [h.1] at hub
  exact VkDescriptorType.noConfusion hub

/-- Witness for C10: a pipeline with a single stage declaring one uniform
buffer; the merged binding for it has type COMBINED_IMAGE_SAMPLER, count 1. -/
theorem merged_bindings_always_combined_image_sampler_witness :
    (("ubo", (⟨0, 3, .combined_image_sampler, 1⟩ : VkResourceBinding)).2.descriptorType =
        .combined_image_sampler ∧
      ("ubo", (⟨0, 3, .combined_image_sampler, 1⟩ : VkResourceBinding)).2.descriptorType ≠
        .uniform_buffer ∧
      ("ubo", (⟨0, 3, .combined_image_sampler, 1⟩ : VkResourceBinding)).2.descriptorCount = 1 ∧
      ∃ r ∈ all_stage_resources [⟨[], [⟨"ubo", 0, 3⟩]⟩],
        r.name = ("ubo", (⟨0, 3, .combined_image_sampler, 1⟩ : VkResourceBinding)).1 ∧
        r.set = ("ubo", (⟨0, 3, .combined_image_sampler, 1⟩ : VkResourceBinding)).2.set ∧
        r.binding = ("ubo", (⟨0, 3, .combined_image_sampler, 1⟩ : VkResourceBinding)).2.binding) :=
  merged_bindings_always_combined_image_sampler [⟨[], [⟨"ubo", 0, 3⟩]⟩]
    ("ubo", ⟨0, 3, .combined_image_sampler, 1⟩) (by decide)

/-! ## Descriptor set contiguity (C6) -/

theorem bindings_for_set_nil_iff (all : List (String × VkResourceBinding))
    (i : Nat) :
    bindings_for_set all i = [] ↔ ∀ nb ∈ all, nb.2.set ≠ i := by
  simp [bindings_for_set, List.map_eq_nil_iff, List.filter_eq_nil_iff]

theorem mem_populated_iff (all : List (String × VkResourceBinding)) (i : Nat) :
    i ∈ (all.map (fun nb => nb.2.set)).toFinset ↔
      bindings_for_set all i ≠ [] := by
  rw [List.mem_toFinset, List.mem_map]
  constructor
  · rintro ⟨nb, hnb, hset⟩ hnil
    exact (bindings_for_set_nil_iff all i).mp hnil nb hnb hset
  · intro h
    by_contra hno
    push_neg at hno
    exact h ((bindings_for_set_nil_iff all i).mpr hno)

theorem num_populated_sets_eq_card (all : List (String × VkResourceBinding)) :
    (all.map (fun nb => nb.2.set)).toFinset.card = num_populated_sets all :=
  List.card_toFinset _

theorem layouts_up_to_ok_of_populated (all : List (String × VkResourceBinding))
    (k : Nat) (h : ∀ i, i < k → bindings_for_set all i ≠ []) :
    layouts_up_to all k =
      .ok ((List.range k).map fun i => ⟨i, bindings_for_set all i⟩) := by
  induction k with
  | zero => rfl
  | succ k ih =>
    rw [layouts_up_to, ih (fun i hi => h i (by omega))]
    have hk := h k (by omega)
    simp only [List.range_succ, List.map_append, List.map_cons, List.map_nil]
    rw [if_neg (by simpa [List.isEmpty_iff] using hk)]

theorem layouts_up_to_error_of_gap (all : List (String × VkResourceBinding))
    (k : Nat) (h : ∃ i, i < k ∧ bindings_for_set all i = []) :
    ∃ m, m < k ∧ bindings_for_set all m = [] ∧
      layouts_up_to all k = .error m := by
  induction k with
  | zero =>
    obtain ⟨i, hi, _⟩ := h
    omega
  | succ k ih =>
    by_cases hk : ∃ i, i < k ∧ bindings_for_set all i = []
    · obtain ⟨m, hm, hbm, herr⟩ := ih hk
      exact ⟨m, by omega, hbm, by rw [layouts_up_to, herr]⟩
    · push_neg at hk
      obtain ⟨i, hi, hbi⟩ := h
      have hik : i = k := by
        rcases Nat.lt_succ_iff_lt_or_eq.mp hi with h1 | h1
        · exact absurd hbi (hk i h1)
        · exact h1
      subst hik
      refine ⟨i, by omega, hbi, ?_⟩
      rw [layouts_up_to, layouts_up_to_ok_of_populated all i (fun j hj => hk j hj)]
      simp [hbi]

/-- Claim C6: if some set index with no bindings lies below a referenced set
index, create_descriptor_set_layouts raises the descriptor-set-gap error
carrying a missing set index that lies below a referenced index; if the
populated set indices are exactly 0..k, it returns one layout per populated
index, in index order. -/
theorem create_descriptor_set_layouts_correct :
    (∀ all : List (String × VkResourceBinding), ∀ j : Nat,
      bindings_for_set all j = [] → (∃ nb ∈ all, j < nb.2.set) →
      ∃ m, bindings_for_set all m = [] ∧ (∃ nb ∈ all, m < nb.2.set) ∧
        create_descriptor_set_layouts all = .error m) ∧
    (∀ all : List (String × VkResourceBinding), ∀ k : Nat,
      (∀ i, i ≤ k → bindings_for_set all i ≠ []) →
      (∀ nb ∈ all, nb.2.set ≤ k) →
      create_descriptor_set_layouts all =
        .ok ((List.range (k + 1)).map fun i => ⟨i, bindings_for_set all i⟩)) := by
  constructor
  · intro all j hj hyp_above
    set S := (all.map (fun nb => nb.2.set)).toFinset with hS
    set n := num_populated_sets all with hn
    have hcard : S.card = n := num_populated_sets_eq_card all
    have hgap_below_n : ∃ i, i < n ∧ bindings_for_set all i = [] := by
      by_contra hno
      push_neg at hno
      have hsub : Finset.range n ⊆ S := by
        intro i hi
        rw [mem_populated_iff]
        exact hno i (Finset.mem_range.mp hi)
      have hSeq : Finset.range n = S :=
        Finset.eq_of_subset_of_card_le hsub (by rw [hcard, Finset.card_range])
      obtain ⟨nb, hnb, hjlt⟩ := hyp_above
      have hin : nb.2.set ∈ S := by
        rw [hS, List.mem_toFinset, List.mem_map]
        exact ⟨nb, hnb, rfl⟩
      have hset_lt : nb.2.set < n := Finset.mem_range.mp (hSeq ▸ hin)
      have hjn : j < n := by omega
      have : j ∈ S := hSeq ▸ Finset.mem_range.mpr hjn
      rw [mem_populated_iff] at this
      exact this hj
    obtain ⟨m, hm, hbm, herr⟩ := layouts_up_to_error_of_gap all n hgap_below_n
    refine ⟨m, hbm, ?_, herr⟩
    by_contra hnone
    push_neg at hnone
    have hsub : S ⊆ Finset.range m := by
      intro s hs
      have hsm : s ≤ m := by
        rw [hS, List.mem_toFinset, List.mem_map] at hs
        obtain ⟨nb, hnb, rfl⟩ := hs
        exact hnone nb hnb
      have hne : s ≠ m := by
        intro hsm2
        subst hsm2
        rw [mem_populated_iff] at hs
        exact hs hbm
      exact Finset.mem_range.mpr (by omega)
    have := Finset.card_le_card hsub
    rw [hcard, Finset.card_range] at this
    omega
  · intro all k hpop habove
    have hSeq : (all.map (fun nb => nb.2.set)).toFinset = Finset.range (k + 1) := by
      apply Finset.Subset.antisymm
      · intro s hs
        rw [List.mem_toFinset, List.mem_map] at hs
        obtain ⟨nb, hnb, rfl⟩ := hs
        exact Finset.mem_range.mpr (Nat.lt_succ_of_le (habove nb hnb))
      · intro i hi
        rw [mem_populated_iff]
        exact hpop i (Nat.lt_succ_iff.mp (Finset.mem_range.mp hi))
    have hcard : num_populated_sets all = k + 1 := by
      rw [← num_populated_sets_eq_card, hSeq, Finset.card_range]
    rw [create_descriptor_set_layouts, hcard]
    exact layouts_up_to_ok_of_populated all (k + 1)
      (fun i hi => hpop i (Nat.lt_succ_iff.mp hi))

/-- A merged bindings map with populated sets 0 and 2 (set 1 is a gap). -/
def exampleGapBindings : List (String × VkResourceBinding) :=
  [("a", ⟨0, 0, .combined_image_sampler, 1⟩),
    ("b", ⟨2, 0, .combined_image_sampler, 1⟩)]

/-- A merged bindings map with populated sets exactly 0 and 1. -/
def exampleContiguousBindings : List (String × VkResourceBinding) :=
  [("a", ⟨0, 0, .combined_image_sampler, 1⟩),
    ("b", ⟨1, 1, .combined_image_sampler, 1⟩)]

/-- Witness for C6: sets {0,2} populated trigger the gap error; sets {0,1}
yield one layout per set, in index order. -/
theorem create_descriptor_set_layouts_correct_witness :
    (∃ m, bindings_for_set exampleGapBindings m = [] ∧
      (∃ nb ∈ exampleGapBindings, m < nb.2.set) ∧
      create_descriptor_set_layouts exampleGapBindings = .error m) ∧
    create_descriptor_set_layouts exampleContiguousBindings =
      .ok ((List.range 2).map fun i =>
        ⟨i, bindings_for_set exampleContiguousBindings i⟩) :=
  ⟨create_descriptor_set_layouts_correct.1 exampleGapBindings 1 (by decide)
      ⟨("b", ⟨2, 0, .combined_image_sampler, 1⟩), by decide, by decide⟩,
    create_descriptor_set_layouts_correct.2 exampleContiguousBindings 1
      (by decide) (by decide)⟩

/-! ## Shaderpack reload teardown (vulkan_render_engine::set_shaderpack) -/

/-- The per-pipeline data relevant to teardown ordering: the pipeline name and
the name of the render pass it was created against (pipeline_data::pass). -/
structure VkPipelineData where
  name : String
  pass : String
deriving DecidableEq, Repr

/-- One GPU object destruction performed during the teardown. -/
inductive DestroyEvent
  | render_pass (name : String)
  | pipeline (name : String)
  | dynamic_texture (name : String)
deriving DecidableEq, Repr

/-- The compiled shaderpack objects held by the engine before a reload. -/
structure ShaderpackObjects where
  render_passes : List String
  pipelines : List VkPipelineData
  dynamic_textures : List String
  shaderpack_loaded : Bool
deriving DecidableEq, Repr

/-- The destruction sequence at the top of set_shaderpack when a shaderpack is
already loaded: destroy_render_passes (every cached pass), then
destroy_graphics_pipelines (every pipeline), then, after materials.clear()
which frees no GPU object, destroy_dynamic_textures (every dynamic texture).
Nothing is destroyed when no shaderpack is loaded. -/
def set_shaderpack_destroy_events (s : ShaderpackObjects) : List DestroyEvent :=
  if s.shaderpack_loaded then
    s.render_passes.map .render_pass ++
      s.pipelines.map (fun p => .pipeline p.name) ++
      s.dynamic_textures.map .dynamic_texture
  else []

/-- Discriminator for render pass destruction events. -/
def DestroyEvent.is_render_pass : DestroyEvent → Bool
  | .render_pass _ => true
  | _ => false

/-- Discriminator for pipeline destruction events. -/
def DestroyEvent.is_pipeline : DestroyEvent → Bool
  | .pipeline _ => true
  | _ => false

/-- Discriminator for dynamic texture destruction events. -/
def DestroyEvent.is_texture : DestroyEvent → Bool
  | .dynamic_texture _ => true
  | _ => false

/-- Every event of the first kind occurs strictly before every event of the
second kind in the event list. -/
def DestroyedBefore (evs : List DestroyEvent) (p q : DestroyEvent → Bool) :
    Prop :=
  ∀ i j, (hi : i < evs.length) → (hj : j < evs.length) →
    p (evs.get ⟨i, hi⟩) = true → q (evs.get ⟨j, hj⟩) = true → i < j

theorem destroyedBefore_append (A B : List DestroyEvent)
    (p q : DestroyEvent → Bool)
    (hA : ∀ e ∈ A, q e = false) (hB : ∀ e ∈ B, p e = false) :
    DestroyedBefore (A ++ B) p q := by
  intro i j hi hj hpi hqj
  by_contra hij
  push_neg at hij
  have hjA : j < A.length := by
    by_contra hjB
    push_neg at hjB
    have hmem : (A ++ B).get ⟨j, hj⟩ ∈ B := by
      rw [List.get_eq_getElem, List.getElem_append_right hjB]
      exact List.getElem_mem _
    have hij2 : i < A.length := by
      by_contra hiB
      push_neg at hiB
      have hmi : (A ++ B).get ⟨i, hi⟩ ∈ B := by
        rw [List.get_eq_getElem, List.getElem_append_right hiB]
        exact List.getElem_mem _
      rw [hB _ hmi] at hpi
      exact Bool.noConfusion hpi
    omega
  have hmemA : (A ++ B).get ⟨j, hj⟩ ∈ A := by
    rw [List.get_eq_getElem, List.getElem_append_left hjA]
    exact List.getElem_mem _
  rw [hA _ hmemA] at hqj
  exact Bool.noConfusion hqj

/-- Claim C4 amended: on reload, set_shaderpack destroys every cached render
pass first, then every pipeline, then every dynamic texture; hence all pass
and pipeline objects are destroyed before any dynamic texture, but pipelines
are destroyed after (not before) the passes they reference. -/
theorem set_shaderpack_destroy_order (s : ShaderpackObjects)
    (h : s.shaderpack_loaded = true) :
    DestroyedBefore (set_shaderpack_destroy_events s)
      DestroyEvent.is_render_pass DestroyEvent.is_pipeline ∧
    DestroyedBefore (set_shaderpack_destroy_events s)
      DestroyEvent.is_pipeline DestroyEvent.is_texture ∧
    DestroyedBefore (set_shaderpack_destroy_events s)
      DestroyEvent.is_render_pass DestroyEvent.is_texture := by
  have hev : set_shaderpack_destroy_events s =
      s.render_passes.map .render_pass ++
        (s.pipelines.map (fun p => .pipeline p.name) ++
          s.dynamic_textures.map .dynamic_texture) := by
    rw [set_shaderpack_destroy_events, if_pos h, List.append_assoc]
  have hev2 : set_shaderpack_destroy_events s =
      (s.render_passes.map .render_pass ++
        s.pipelines.map (fun p => .pipeline p.name)) ++
        s.dynamic_textures.map .dynamic_texture := by
    rw [set_shaderpack_destroy_events, if_pos h]
  refine ⟨?_, ?_, ?_⟩
  · rw [hev]
    apply destroyedBefore_append
    · intro e he
      obtain ⟨nm, _, rfl⟩ := List.mem_map.mp he
      rfl
    · intro e he
      rcases List.mem_append.mp he with h1 | h1 <;>
        obtain ⟨nm, _, rfl⟩ := List.mem_map.mp h1 <;> rfl
  · rw [hev2]
    apply destroyedBefore_append
    · intro e he
      rcases List.mem_append.mp he with h1 | h1 <;>
        obtain ⟨nm, _, rfl⟩ := List.mem_map.mp h1 <;> rfl
    · intro e he
      obtain ⟨nm, _, rfl⟩ := List.mem_map.mp he
      rfl
  · rw [hev2]
    apply destroyedBefore_append
    · intro e he
      rcases List.mem_append.mp he with h1 | h1 <;>
        obtain ⟨nm, _, rfl⟩ := List.mem_map.mp h1 <;> rfl
    · intro e he
      obtain ⟨nm, _, rfl⟩ := List.mem_map.mp he
      rfl

/-- Witness for the amended C4: one pass, one pipeline referencing it, one
texture. -/
theorem set_shaderpack_destroy_order_witness :
    DestroyedBefore
        (set_shaderpack_destroy_events ⟨["p"], [⟨"q", "p"⟩], ["t"], true⟩)
        DestroyEvent.is_render_pass DestroyEvent.is_pipeline ∧
      DestroyedBefore
        (set_shaderpack_destroy_events ⟨["p"], [⟨"q", "p"⟩], ["t"], true⟩)
        DestroyEvent.is_pipeline DestroyEvent.is_texture ∧
      DestroyedBefore
        (set_shaderpack_destroy_events ⟨["p"], [⟨"q", "p"⟩], ["t"], true⟩)
        DestroyEvent.is_render_pass DestroyEvent.is_texture :=
  set_shaderpack_destroy_order ⟨["p"], [⟨"q", "p"⟩], ["t"], true⟩ rfl

/-- Claim C4 counterexample: with one compiled pass "p", one pipeline "q" whose
pipeline_data::pass references "p", and one dynamic texture, the reload
teardown destroys the pass at position 0 and the pipeline referencing it at
position 1 — the pipeline is destroyed after the pass it references,
contradicting the claimed lifetime-dependency order. -/
theorem set_shaderpack_destroys_pass_before_pipeline :
    set_shaderpack_destroy_events ⟨["p"], [⟨"q", "p"⟩], ["t"], true⟩ =
      [.render_pass "p", .pipeline "q", .dynamic_texture "t"] ∧
    ¬ DestroyedBefore
        (set_shaderpack_destroy_events ⟨["p"], [⟨"q", "p"⟩], ["t"], true⟩)
        DestroyEvent.is_pipeline DestroyEvent.is_render_pass := by
  refine ⟨rfl, fun h => ?_⟩
  have := h 1 0 (by decide) (by decide) (by decide) (by decide)
  omega

/-! ## Frame loop (vulkan_render_engine::render_frame) -/

/-- The outcomes of vkAcquireNextImageKHR distinguished by render_frame. -/
inductive AcquireResult
  | success
  | suboptimal_khr
  | error_out_of_date_khr
  | other_error
deriving DecidableEq, Repr

/-- The externally visible steps render_frame performs, in order. -/
inductive FrameStep
  | wait_for_submit_fence (slot : Nat)
  | reset_submit_fence (slot : Nat)
  | upload_mesh_parts
  | submit_commands (slot : Nat)
  | present_image (slot : Nat)
deriving DecidableEq, Repr

/-- The engine state render_frame reads and writes: the frame slot index, the
mesh table, the mesh upload queue and the compiled render graph order. -/
structure RenderFrameState where
  current_frame : Nat
  mesh_table : MeshTable
  mesh_upload_queue : List StagingUploadCommand
  render_passes_by_order : List String
deriving DecidableEq, Repr

/-- vulkan_render_engine::render_frame: wait on the slot submit fence, acquire
the next swapchain image; on VK_ERROR_OUT_OF_DATE_KHR or VK_SUBOPTIMAL_KHR
return immediately (no fence reset, no upload, no submit, no present, no state
change); on any other non-success result throw; on success reset the slot
fence, run the mesh upload step (draining the upload queue), submit, present,
and advance the frame slot modulo MAX_FRAMES_IN_QUEUE. -/
def render_frame (maxFramesInQueue partSize : Nat) (acquire : AcquireResult)
    (s : RenderFrameState) :
    Except String (RenderFrameState × List FrameStep) :=
  match acquire with
  | .error_out_of_date_khr => .ok (s, [.wait_for_submit_fence s.current_frame])
  | .suboptimal_khr => .ok (s, [.wait_for_submit_fence s.current_frame])
  | .other_error => .error "vkAcquireNextImageKHR failed"
  | .success =>
    .ok ({ s with
        mesh_upload_queue :=
          (upload_new_mesh_parts partSize s.mesh_upload_queue).2.2,
        current_frame := (s.current_frame + 1) % maxFramesInQueue },
      [.wait_for_submit_fence s.current_frame,
        .reset_submit_fence s.current_frame, .upload_mesh_parts,
        .submit_commands s.current_frame, .present_image s.current_frame])

/-- Claim C9: on a stale (out-of-date) or suboptimal swapchain acquire result,
render_frame skips the frame: it returns with the state unchanged — frame slot
index, mesh table, upload queue and compiled render graph untouched — and the
only step performed is the initial fence wait: no fence reset, no mesh upload,
no submit, no present. -/
theorem render_frame_skips_frame_on_stale_surface
    (N partSize : Nat) (s : RenderFrameState) (r : AcquireResult)
    (h : r = .error_out_of_date_khr ∨ r = .suboptimal_khr) :
    render_frame N partSize r s =
      .ok (s, [.wait_for_submit_fence s.current_frame]) ∧
    (∀ st steps, render_frame N partSize r s = .ok (st, steps) →
      st.current_frame = s.current_frame ∧
      st.mesh_table = s.mesh_table ∧
      st.mesh_upload_queue = s.mesh_upload_queue ∧
      st.render_passes_by_order = s.render_passes_by_order ∧
      (∀ i, FrameStep.reset_submit_fence i ∉ steps) ∧
      FrameStep.upload_mesh_parts ∉ steps ∧
      (∀ i, FrameStep.submit_commands i ∉ steps) ∧
      (∀ i, FrameStep.present_image i ∉ steps)) := by
  rcases h with h | h <;> subst h <;>
    refine ⟨rfl, ?_⟩ <;>
    · intro st steps hok
      simp only [render_frame, Except.ok.injEq, Prod.mk.injEq] at hok
      obtain ⟨h1, h2⟩ := hok
      subst h1
      subst h2
      refine ⟨rfl, rfl, rfl, rfl, ?_, ?_, ?_, ?_⟩ <;>
        simp

/-- Witness for C9: a concrete state and a suboptimal acquire. -/
theorem render_frame_skips_frame_on_stale_surface_witness :
    render_frame 3 64 .suboptimal_khr ⟨1, ⟨5, [2, 3]⟩, [], ["main"]⟩ =
      .ok (⟨1, ⟨5, [2, 3]⟩, [], ["main"]⟩,
        [.wait_for_submit_fence 1]) ∧
    (∀ st steps,
      render_frame 3 64 .suboptimal_khr ⟨1, ⟨5, [2, 3]⟩, [], ["main"]⟩ =
        .ok (st, steps) →
      st.current_frame = (⟨1, ⟨5, [2, 3]⟩, [], ["main"]⟩ :
        RenderFrameState).current_frame ∧
      st.mesh_table = (⟨1, ⟨5, [2, 3]⟩, [], ["main"]⟩ :
        RenderFrameState).mesh_table ∧
      st.mesh_upload_queue = (⟨1, ⟨5, [2, 3]⟩, [], ["main"]⟩ :
        RenderFrameState).mesh_upload_queue ∧
      st.render_passes_by_order = (⟨1, ⟨5, [2, 3]⟩, [], ["main"]⟩ :
        RenderFrameState).render_passes_by_order ∧
      (∀ i, FrameStep.reset_submit_fence i ∉ steps) ∧
      FrameStep.upload_mesh_parts ∉ steps ∧
      (∀ i, FrameStep.submit_commands i ∉ steps) ∧
      (∀ i, FrameStep.present_image i ∉ steps)) :=
  render_frame_skips_frame_on_stale_surface 3 64
    ⟨1, ⟨5, [2, 3]⟩, [], ["main"]⟩ .suboptimal_khr (Or.inr rfl)

/-! ## Frame graph pass ordering (create_render_passes / order_passes) -/

/-- A render pass descriptor as consumed by the frame graph compiler: its name
and its declared texture inputs and outputs (render_pass_data). -/
structure RenderPassData where
  name : String
  texture_inputs : List String
  texture_outputs : List String
deriving DecidableEq, Repr

/-- Modelled from the spec: pass a depends on pass b when a declares as input
a texture that b is known to produce (spec section 4.4). -/
def passDependsOn (a b : RenderPassData) : Bool :=
  a.texture_inputs.any (fun t => b.texture_outputs.contains t)

/-- Modelled from the spec: a pass is ready to be emitted when no
still-unordered pass produces one of its inputs. -/
def passReady (remaining : List RenderPassData) (p : RenderPassData) : Bool :=
  remaining.all (fun q => ! passDependsOn p q)

/-- Modelled from the spec: the loop of order_passes. order_passes lives in
render_graph_builder.hpp, which is not part of the reviewed source; the spec
describes it as a topological sort over the produces/reads dependency graph
with ties among passes with no relative dependency broken by descriptor
declaration order. It is modelled as: repeatedly emit the first, in
declaration order, still-unordered pass whose producers have all been emitted,
reporting a cycle (none) when no pass is ready. Fuel is the pass count. -/
def order_passes_go : Nat → List RenderPassData → Option (List String)
  | 0, [] => some []
  | 0, _ :: _ => none
  | fuel + 1, remaining =>
    match remaining.find? (passReady remaining) with
    | none => none
    | some p =>
      (order_passes_go fuel (remaining.erase p)).map (fun r => p.name :: r)

/-- Modelled from the spec: order_passes on a pass list in declaration order. -/
def order_passes (passes : List RenderPassData) : Option (List String) :=
  order_passes_go passes.length passes

theorem order_passes_go_mem (fuel : Nat) (rem : List RenderPassData)
    (ord : List String) (h : order_passes_go fuel rem = some ord) :
    ∀ q ∈ rem, q.name ∈ ord := by
  induction fuel generalizing rem ord with
  | zero =>
    cases rem with
    | nil => intro q hq; exact absurd hq (List.not_mem_nil q)
    | cons x l => exact absurd h (by simp [order_passes_go])
  | succ fuel ih =>
    rw [order_passes_go] at h
    cases hfind : rem.find? (passReady rem) with
    | none =>
      rw [hfind] at h
      exact absurd h (by simp)
    | some p =>
      rw [hfind] at h
      dsimp only at h
      cases hrec : order_passes_go fuel (rem.erase p) with
      | none =>
        rw [hrec] at h
        exact absurd h (by simp)
      | some ord0 =>
        rw [hrec] at h
        simp only [Option.map] at h
        injection h with h
        subst h
        intro q hq
        by_cases hqp : q = p
        · subst hqp
          exact List.mem_cons_self _ _
        · have hq2 : q ∈ rem.erase p := (List.mem_erase_of_ne hqp).mpr hq
          exact List.mem_cons_of_mem _ (ih _ _ hrec q hq2)

theorem names_nodup_erase (rem : List RenderPassData) (p : RenderPassData)
    (h : (rem.map RenderPassData.name).Nodup) :
    ((rem.erase p).map RenderPassData.name).Nodup :=
  List.Nodup.sublist (List.Sublist.map _ (List.erase_sublist p rem)) h

theorem pass_name_ne_of_ne {rem : List RenderPassData}
    (h : (rem.map RenderPassData.name).Nodup) {a b : RenderPassData}
    (ha : a ∈ rem) (hb : b ∈ rem) (hne : a ≠ b) : a.name ≠ b.name :=
  fun he => hne (List.inj_on_of_nodup_map h ha hb he)

theorem find?_append_of_sat {α : Type} (pred : α → Bool) (u v : List α)
    (a : α) (hpa : pred a = true) (p : α)
    (h : (u ++ a :: v).find? pred = some p) : p ∈ u ∨ p = a := by
  induction u with
  | nil =>
    rw [List.nil_append, List.find?_cons_of_pos v hpa] at h
    injection h with h
    exact Or.inr h.symm
  | cons x xs ih =>
    rw [List.cons_append] at h
    cases hx : pred x with
    | true =>
      rw [List.find?_cons_of_pos _ hx] at h
      injection h with h
      exact Or.inl (h ▸ List.mem_cons_self x xs)
    | false =>
      rw [List.find?_cons_of_neg _ (by simp [hx])] at h
      rcases ih h with h1 | h1
      · exact Or.inl (List.mem_cons_of_mem _ h1)
      · exact Or.inr h1

theorem order_passes_go_producer_first (fuel : Nat) :
    ∀ (rem : List RenderPassData) (ord : List String),
    fuel = rem.length → (rem.map RenderPassData.name).Nodup →
    order_passes_go fuel rem = some ord →
    ∀ c a, c ∈ rem → a ∈ rem → passDependsOn c a = true → c ≠ a →
    ord.indexOf a.name < ord.indexOf c.name := by
  induction fuel with
  | zero =>
    intro rem ord hlen _ _ c a hc _ _ _
    cases rem with
    | nil => exact absurd hc (List.not_mem_nil c)
    | cons x l => simp at hlen
  | succ fuel ih =>
    intro rem ord hlen hnd h c a hc ha hdep hne
    rw [order_passes_go] at h
    cases hfind : rem.find? (passReady rem) with
    | none =>
      rw [hfind] at h
      exact absurd h (by simp)
    | some p =>
      rw [hfind] at h
      dsimp only at h
      cases hrec : order_passes_go fuel (rem.erase p) with
      | none =>
        rw [hrec] at h
        exact absurd h (by simp)
      | some ord0 =>
        rw [hrec] at h
        simp only [Option.map] at h
        injection h with h
        subst h
        have hp_mem : p ∈ rem := List.mem_of_find?_eq_some hfind
        have hp_ready : passReady rem p = true := List.find?_some hfind
        have hpc : p ≠ c := by
          intro hpc
          subst hpc
          have := List.all_eq_true.mp hp_ready a ha
          rw [hdep] at this
          exact Bool.noConfusion this
        by_cases hpa : p = a
        · subst hpa
          rw [List.indexOf_cons_self]
          have hc2 : c ∈ rem.erase p := (List.mem_erase_of_ne (fun he => hpc he.symm)).mpr hc
          have hcn : c.name ∈ ord0 := order_passes_go_mem fuel _ ord0 hrec c hc2
          have hne2 : p.name ≠ c.name := pass_name_ne_of_ne hnd hp_mem hc (fun he => hpc he)
          rw [List.indexOf_cons_ne _ hne2]
          omega
        · have hlen2 : fuel = (rem.erase p).length := by
            rw [List.length_erase_of_mem hp_mem]
            omega
          have hnd2 := names_nodup_erase rem p hnd
          have hc2 : c ∈ rem.erase p := (List.mem_erase_of_ne (fun he => hpc he.symm)).mpr hc
          have ha2 : a ∈ rem.erase p := (List.mem_erase_of_ne (fun he => hpa he.symm)).mpr ha
          have hih := ih (rem.erase p) ord0 hlen2 hnd2 hrec c a hc2 ha2 hdep hne
          have hpna : p.name ≠ a.name := pass_name_ne_of_ne hnd hp_mem ha hpa
          have hpnc : p.name ≠ c.name := pass_name_ne_of_ne hnd hp_mem hc hpc
          rw [List.indexOf_cons_ne _ hpna, List.indexOf_cons_ne _ hpnc]
          omega

theorem order_passes_go_no_input_first (fuel : Nat) :
    ∀ (rem : List RenderPassData) (ord : List String)
      (u v : List RenderPassData) (a b : RenderPassData),
    fuel = rem.length → (rem.map RenderPassData.name).Nodup →
    order_passes_go fuel rem = some ord →
    rem = u ++ a :: v → b ∈ v → a.texture_inputs = [] →
    ord.indexOf a.name < ord.indexOf b.name := by
  induction fuel with
  | zero =>
    intro rem ord u v a b hlen _ _ hsplit _ _
    subst hsplit
    simp at hlen
    omega
  | succ fuel ih =>
    intro rem ord u v a b hlen hnd h hsplit hb ha
    have hrem_nodup : rem.Nodup := List.Nodup.of_map _ hnd
    have hsplit_nodup := hsplit ▸ hrem_nodup
    have hdisj : u.Disjoint (a :: v) := (List.nodup_append.mp hsplit_nodup).2.2
    have hau : a ∉ u := fun hau => hdisj hau (List.mem_cons_self a v)
    have hav : a ∉ v := by
      have := (List.nodup_append.mp hsplit_nodup).2.1
      simp only [List.nodup_cons] at this
      exact this.1
    have ha_mem : a ∈ rem := by
      rw [hsplit]
      exact List.mem_append.mpr (Or.inr (List.mem_cons_self a v))
    have hb_mem : b ∈ rem := by
      rw [hsplit]
      exact List.mem_append.mpr (Or.inr (List.mem_cons_of_mem a hb))
    have hba : b ≠ a := fun he => hav (he ▸ hb)
    rw [order_passes_go] at h
    cases hfind : rem.find? (passReady rem) with
    | none =>
      rw [hfind] at h
      exact absurd h (by simp)
    | some p =>
      rw [hfind] at h
      dsimp only at h
      cases hrec : order_passes_go fuel (rem.erase p) with
      | none =>
        rw [hrec] at h
        exact absurd h (by simp)
      | some ord0 =>
        rw [hrec] at h
        simp only [Option.map] at h
        injection h with h
        subst h
        have hp_mem : p ∈ rem := List.mem_of_find?_eq_some hfind
        have haready : passReady rem a = true := by
          rw [passReady, List.all_eq_true]
          intro q _
          simp [passDependsOn, ha]
        have hpu_or : p ∈ u ∨ p = a := by
          apply find?_append_of_sat (passReady rem) u v a haready p
          rw [← hsplit]
          exact hfind
        rcases hpu_or with hpu | hpa
        · have hpa : p ≠ a := fun he => hau (he ▸ hpu)
          have hpb : p ≠ b := fun he =>
            hdisj hpu (he ▸ List.mem_cons_of_mem a hb)
          have herase : rem.erase p = u.erase p ++ a :: v := by
            rw [hsplit, List.erase_append_left _ hpu]
          have hlen2 : fuel = (rem.erase p).length := by
            rw [List.length_erase_of_mem hp_mem]
            omega
          have hnd2 := names_nodup_erase rem p hnd
          have hih := ih (rem.erase p) ord0 (u.erase p) v a b hlen2 hnd2 hrec
            herase hb ha
          have hpna : p.name ≠ a.name := pass_name_ne_of_ne hnd hp_mem ha_mem hpa
          have hpnb : p.name ≠ b.name := pass_name_ne_of_ne hnd hp_mem hb_mem hpb
          rw [List.indexOf_cons_ne _ hpna, List.indexOf_cons_ne _ hpnb]
          omega
        · subst hpa
          rw [List.indexOf_cons_self]
          have herase : rem.erase p = u ++ v := by
            rw [hsplit, List.erase_append_right _ hau, List.erase_cons_head]
          have hb2 : b ∈ rem.erase p := by
            rw [herase]
            exact List.mem_append.mpr (Or.inr hb)
          have hbn : b.name ∈ ord0 := order_passes_go_mem fuel _ ord0 hrec b hb2
          have hne2 : p.name ≠ b.name :=
            pass_name_ne_of_ne hnd hp_mem hb_mem (fun he => hba he.symm)
          rw [List.indexOf_cons_ne _ hne2]
          omega

/-- Claim C5 amended (spec-modelled order_passes): pass ordering is a pure
function of the descriptor list, so repeated compilation of the same list
yields the identical order; a pass that reads a texture produced by another
pass is always ordered after its producer; and the declaration-order tie
break guarantees that a pass with no texture inputs precedes every pass
declared after it. Among simultaneously-ready passes the earliest declared is
emitted first, but a pair of passes with no relative dependency is not always
kept in declaration order (see the counterexample). -/
theorem order_passes_correct :
    (∀ ps qs : List RenderPassData, ps = qs →
      order_passes ps = order_passes qs) ∧
    (∀ (ps : List RenderPassData) (ord : List String) (a c : RenderPassData),
      (ps.map RenderPassData.name).Nodup → order_passes ps = some ord →
      a ∈ ps → c ∈ ps → passDependsOn c a = true → c ≠ a →
      ord.indexOf a.name < ord.indexOf c.name) ∧
    (∀ (ps : List RenderPassData) (ord : List String)
        (u v : List RenderPassData) (a b : RenderPassData),
      (ps.map RenderPassData.name).Nodup → order_passes ps = some ord →
      ps = u ++ a :: v → b ∈ v → a.texture_inputs = [] →
      ord.indexOf a.name < ord.indexOf b.name) := by
  refine ⟨fun ps qs h => by rw [h], ?_, ?_⟩
  · intro ps ord a c hnd h ha hc hdep hne
    exact order_passes_go_producer_first ps.length ps ord rfl hnd h c a hc ha
      hdep hne
  · intro ps ord u v a b hnd h hsplit hb ha
    exact order_passes_go_no_input_first ps.length ps ord u v a b rfl hnd h
      hsplit hb ha

/-- Witness for the amended C5, on the three-pass example of the spec test
list: A produces texture t, B reads and produces nothing, C reads t. The
computed order is [A, B, C]; A (the producer) precedes C (the consumer), and
A, which has no inputs, precedes the later-declared B. -/
theorem order_passes_correct_witness :
    order_passes
        [⟨"A", [], ["t"]⟩, ⟨"B", [], []⟩, ⟨"C", ["t"], []⟩] =
      order_passes
        [⟨"A", [], ["t"]⟩, ⟨"B", [], []⟩, ⟨"C", ["t"], []⟩] ∧
    (["A", "B", "C"].indexOf ("A" : String) <
      ["A", "B", "C"].indexOf ("C" : String)) ∧
    (["A", "B", "C"].indexOf ("A" : String) <
      ["A", "B", "C"].indexOf ("B" : String)) :=
  ⟨order_passes_correct.1 _ _ rfl,
    order_passes_correct.2.1
      [⟨"A", [], ["t"]⟩, ⟨"B", [], []⟩, ⟨"C", ["t"], []⟩]
      ["A", "B", "C"] ⟨"A", [], ["t"]⟩ ⟨"C", ["t"], []⟩
      (by decide) (by decide) (by decide) (by decide) (by decide) (by decide),
    order_passes_correct.2.2
      [⟨"A", [], ["t"]⟩, ⟨"B", [], []⟩, ⟨"C", ["t"], []⟩]
      ["A", "B", "C"] [] [⟨"B", [], []⟩, ⟨"C", ["t"], []⟩]
      ⟨"A", [], ["t"]⟩ ⟨"B", [], []⟩
      (by decide) (by decide) rfl (by decide) rfl⟩

/-- Claim C5 counterexample (spec-modelled order_passes): declaration order
[A (reads t), B (reads nothing), X (produces t)]. A and B have no dependency
on each other in either direction and A is declared before B, yet the
computed order is [B, X, A], with B before A: the declaration-order tie break
applies only among simultaneously-ready passes, and on this input no
topological order at all can keep every incomparable pair in declaration
order (A must follow X, X must follow B if B-X ties break by declaration,
and the claim would put A before B). -/
theorem order_passes_declaration_order_not_preserved :
    order_passes [⟨"A", ["t"], []⟩, ⟨"B", [], []⟩, ⟨"X", [], ["t"]⟩] =
      some ["B", "X", "A"] ∧
    passDependsOn ⟨"A", ["t"], []⟩ ⟨"B", [], []⟩ = false ∧
    passDependsOn ⟨"B", [], []⟩ ⟨"A", ["t"], []⟩ = false ∧
    ["B", "X", "A"].indexOf ("B" : String) = 0 ∧
    ["B", "X", "A"].indexOf ("A" : String) = 2 := by
  refine ⟨rfl, rfl, rfl, by decide, by decide⟩

end Nova
